import Mathlib

/-!
Shallow embedding of the transformation stage of the `desafio_reals_bet`
pipeline (`src/transform.py`).  Tables are modelled either generically
(`DataFrame`: a list of column names plus rows of nullable string cells,
used for the column-level utilities `aplicar_mapeamento` and
`processar_nome_completo`) or as typed record lists (used for the entity
enrichers `transformar_agencias`, `transformar_transacoes`,
`transformar_propostas`).  Floating point amounts are modelled as `ℚ`;
pandas nulls (`NaN` / `NaT`) are modelled as `Option.none`.
-/

namespace RealsBet

/-- A pandas cell: `none` models `NaN`. -/
abbrev Cell := Option String

/-- Generic model of a `pd.DataFrame` with nullable string cells: an
ordered list of column names and the rows, each row holding its cells in
column order. -/
structure DataFrame where
  cols : List String
  rows : List (List Cell)
deriving DecidableEq, Repr

/-- Cell of row `r` in the column named `c` (columns listed in `cols`);
`none` when the column is absent, mirroring a NaN lookup. -/
def getCellByName (cols : List String) (r : List Cell) (c : String) : Cell :=
  match cols.indexOf? c with
  | some i => r.getD i none
  | none => none

/-- `df[cs]` — column selection/reordering: rebuild every row with the
cells of the requested columns, in the requested order. -/
def selectCols (df : DataFrame) (cs : List String) : DataFrame :=
  ⟨cs, df.rows.map (fun r => cs.map (fun c => getCellByName df.cols r c))⟩

/-- `df[name] = f(row)` — pandas column assignment: overwrite the column
in place when it already exists, otherwise append it as the last column.
The right-hand side `f` is evaluated against the pre-assignment row. -/
def assignColumn (df : DataFrame) (name : String)
    (f : List Cell → Cell) : DataFrame :=
  match df.cols.indexOf? name with
  | some i => ⟨df.cols, df.rows.map (fun r => r.set i (f r))⟩
  | none => ⟨df.cols ++ [name], df.rows.map (fun r => r ++ [f r])⟩

/-- The mapping argument of `aplicar_mapeamento`: a dict /
`MappingProxyType` / callable returning one of those resolves to a valid
key→label association list; any other runtime type is invalid and makes
the function fall back to the identity mapping.  The reference tables of
the source (`_LOCAL_UF_MAP`, `_LOCAL_TIPO_CONTA_MAP`,
`_LOCAL_TIPO_CLIENTE_MAP`) all carry string labels, so labels are
modelled as (non-null) strings. -/
inductive Mapeamento where
  | valid : List (String × String) → Mapeamento
  | invalid : Mapeamento
deriving DecidableEq, Repr

/-- `df[coluna].map(safe_map).fillna(df[coluna])` on one cell: a value
found as a key is replaced by its label, a value absent from the map
becomes NaN under `.map` and is restored by `.fillna`, and a NaN cell
stays NaN. -/
def mapCell (m : List (String × String)) (c : Cell) : Cell :=
  match c with
  | none => none
  | some v => some ((m.lookup v).getD v)

/-- `FALLBACK_MAP = \x7bk: k for k in df[coluna].unique()\x7d`: the
identity mapping on the distinct non-null values of the column.  (The
NaN key pandas would also include maps NaN to NaN, which `mapCell`
already yields for `none`.) -/
def fallbackMap (df : DataFrame) (i : Nat) : List (String × String) :=
  ((df.rows.map (fun r => r.getD i none)).filterMap id).dedup.map
    (fun v => (v, v))

/-- `safe_map` as resolved by `aplicar_mapeamento`: a valid mapping is
used as is, an invalid one (and any exception while resolving or
applying) is replaced by the identity `FALLBACK_MAP` over the values of
column `i`. -/
def safeMapOf (df : DataFrame) (i : Nat) (m : Mapeamento) :
    List (String × String) :=
  match m with
  | .valid l => l
  | .invalid => fallbackMap df i

/-- `aplicar_mapeamento(df, coluna, mapeamento)` (transform.py 74-103):
no-op when the column is absent; otherwise resolve the mapping (an
invalid type, or any exception while resolving/applying, falls back to
the identity `FALLBACK_MAP`) and apply `map(...).fillna(original)` to
the column. -/
def aplicar_mapeamento (df : DataFrame) (coluna : String)
    (m : Mapeamento) : DataFrame :=
  match df.cols.indexOf? coluna with
  | none => df
  | some i =>
    ⟨df.cols, df.rows.map (fun r =>
      r.set i (mapCell (safeMapOf df i m) (r.getD i none)))⟩

/-- Python `list.insert(n, a)`: positions past the end append at the
end (unlike `List.insertIdx`, which would leave the list unchanged). -/
def pyInsert (n : Nat) (a : String) (l : List String) : List String :=
  if n ≤ l.length then l.insertIdx n a else l ++ [a]

/-- `df['primeiro_nome'] + ' ' + df['ultimo_nome']` on one row: string
concatenation with a space; NaN in either operand yields NaN. -/
def concatCells (a b : Cell) : Cell :=
  match a, b with
  | some x, some y => some (x ++ " " ++ y)
  | _, _ => none

/-- `processar_nome_completo(df)` (transform.py 122-130): when both
`primeiro_nome` and `ultimo_nome` exist, assign
`nome_completo` = first + " " + last, drop the two source columns, and
move `nome_completo` to position 1 (`cols.insert(1, cols.pop(...))`);
otherwise return the table unchanged. -/
def processar_nome_completo (df : DataFrame) : DataFrame :=
  if "primeiro_nome" ∈ df.cols ∧ "ultimo_nome" ∈ df.cols then
    let df1 := assignColumn df "nome_completo"
      (fun r => concatCells (getCellByName df.cols r "primeiro_nome")
                            (getCellByName df.cols r "ultimo_nome"))
    let df2 := selectCols df1
      (df1.cols.filter (fun c => c ≠ "primeiro_nome" ∧ c ≠ "ultimo_nome"))
    selectCols df2 (pyInsert 1 "nome_completo" (df2.cols.erase "nome_completo"))
  else df

/-- `Series.clip(lower=-1e6, upper=1e6)` on one amount
(transform.py 224-228). -/
def clipAmount (x : ℚ) : ℚ :=
  min (max x (-1000000)) 1000000

/-! ### `extrair_uf` — regex model

`extrair_uf` (transform.py 105-120) runs `re.search` with three patterns
in a fixed order and returns the first captured group, uppercased.  The
patterns are modelled over `List Char` with Python `re` semantics:
`$` (no MULTILINE) matches only at the very end of the string or just
before a single final newline, `\b` is a word/non-word boundary, and
`re.search` returns the match at the leftmost feasible start.

Python 3 evaluates `\w`, `\s` and `\d` on `str` against the full
Unicode tables (every Unicode alphanumeric is a word character, every
Unicode whitespace a space, every Unicode decimal digit a digit), which
a shallow embedding cannot reproduce table-for-table.  The matchers
therefore take the three character classes as parameters `w`, `sp`,
`d`; every structural property below is proved for *all*
instantiations, hence in particular for Python's true tables.  The
concrete evaluations instantiate the classes with their ASCII
restrictions (`isWordAscii`, `isSpaceAscii`, `isDigitAscii`, which
agree with Python's tables on every ASCII character); since the
matchers inspect only characters of the input, the ASCII instantiation
computes exactly what the source computes on ASCII addresses.  The
greedy, non-backtracking treatment of `\s*` relies on `\s` being
disjoint from `[A-Z]` (pattern 1) and from `\d` (pattern 2), which
holds for Python's tables: no whitespace character is alphanumeric. -/

/-- Python regex `[A-Z]` (exact: this class is ASCII by construction). -/
def isUpperAZ (c : Char) : Bool := 'A' ≤ c ∧ c ≤ 'Z'

/-- Python regex `\d` restricted to ASCII, where it is exactly the
decimal digits. -/
def isDigitAscii (c : Char) : Bool := '0' ≤ c ∧ c ≤ '9'

/-- Python regex `\w` restricted to ASCII, where it is exactly
letters, digits and underscore. -/
def isWordAscii (c : Char) : Bool :=
  isUpperAZ c || ('a' ≤ c && c ≤ 'z') || isDigitAscii c || c = '_'

/-- Python regex `\s` restricted to ASCII: tab, newline, vertical tab,
form feed, carriage return (U+0009-U+000D), the separator controls
U+001C-U+001F, and space. -/
def isSpaceAscii (c : Char) : Bool :=
  (Char.ofNat 9 ≤ c && c ≤ Char.ofNat 13) ||
  (Char.ofNat 28 ≤ c && c ≤ Char.ofNat 31) || c = ' '

/-- `$` (no MULTILINE): matches only when the remaining text is empty,
or is exactly one final newline. -/
def dollarEnd : List Char → Bool
  | [] => true
  | [c] => c = '\n'
  | _ :: _ :: _ => false

/-- Consume exactly `n` chars of the digit class `d`; return the rest. -/
def takeDigits (d : Char → Bool) : Nat → List Char → Option (List Char)
  | 0, t => some t
  | n + 1, c :: t => if d c then takeDigits d n t else none
  | _ + 1, [] => none

/-- Try pattern 1, `/\s*([A-Z]{2})\b`, anchored at the head of the
list: a slash, optional whitespace, two capital letters, then a word
boundary (end of string or a non-word character). -/
def matchP1At (sp w : Char → Bool) : List Char → Option (Char × Char)
  | c :: t =>
    if c = '/' then
      match t.dropWhile sp with
      | c1 :: c2 :: rest =>
        if isUpperAZ c1 && isUpperAZ c2 &&
           (match rest with | [] => true | e :: _ => ! w e) then
          some (c1, c2)
        else none
      | _ => none
    else none
  | [] => none

/-- Try pattern 2, `\b([A-Z]{2})\s*\d{5}-?\d{3}$`, anchored at the head
of the list; the leading `\b` is checked by the caller.  After the five
digits the optional hyphen is consumed when present (skipping it cannot
succeed, since `-` is not a digit). -/
def matchP2At (sp d : Char → Bool) : List Char → Option (Char × Char)
  | c1 :: c2 :: t =>
    if isUpperAZ c1 && isUpperAZ c2 then
      match takeDigits d 5 (t.dropWhile sp) with
      | some t3 =>
        let t4 := match t3 with | '-' :: r => r | r => r
        match takeDigits d 3 t4 with
        | some t5 => if dollarEnd t5 then some (c1, c2) else none
        | none => none
      | none => none
    else none
  | _ => none

/-- Try pattern 3, `\b([A-Z]{2})\s*$`, anchored at the head of the
list; the leading `\b` is checked by the caller.  `\s*$` holds exactly
when `$` matches after the maximal whitespace run: the only candidate
positions for `$` are the end of the string and before a final newline,
and a final newline left unconsumed by a shorter run is found at the
head of the remainder. -/
def matchP3At (sp : Char → Bool) : List Char → Option (Char × Char)
  | c1 :: c2 :: t =>
    if isUpperAZ c1 && isUpperAZ c2 && dollarEnd (t.dropWhile sp) then
      some (c1, c2)
    else none
  | _ => none

/-- A word boundary `\b` holds before a word character exactly when the
preceding character (if any) is not a word character. -/
def boundaryBefore (w : Char → Bool) (prev : Option Char) : Bool :=
  match prev with
  | none => true
  | some p => ! w p

/-- `re.search` for pattern 1: try every start position from the left
and return the first capture. -/
def searchP1 (sp w : Char → Bool) : List Char → Option (Char × Char)
  | [] => none
  | c :: t =>
    match matchP1At sp w (c :: t) with
    | some r => some r
    | none => searchP1 sp w t

/-- `re.search` for pattern 2, carrying the previous character for the
leading `\b`. -/
def searchP2 (sp d w : Char → Bool) (prev : Option Char) :
    List Char → Option (Char × Char)
  | [] => none
  | c :: t =>
    match (if boundaryBefore w prev then matchP2At sp d (c :: t) else none) with
    | some r => some r
    | none => searchP2 sp d w (some c) t

/-- `re.search` for pattern 3, carrying the previous character for the
leading `\b`. -/
def searchP3 (sp w : Char → Bool) (prev : Option Char) :
    List Char → Option (Char × Char)
  | [] => none
  | c :: t =>
    match (if boundaryBefore w prev then matchP3At sp (c :: t) else none) with
    | some r => some r
    | none => searchP3 sp w (some c) t

/-- `extrair_uf(endereco)` (transform.py 105-120), parametric in the
`\w`, `\s`, `\d` classes: `None` for a missing address, otherwise the
first of the three patterns to match anywhere in the string wins and
its two-letter group is returned uppercased; `None` when none match. -/
def extrair_uf (w sp d : Char → Bool) (endereco : Option String) :
    Option String :=
  match endereco with
  | none => none
  | some s =>
    let cs := s.toList
    match searchP1 sp w cs with
    | some (a, b) => some (String.mk [a.toUpper, b.toUpper])
    | none =>
      match searchP2 sp d w none cs with
      | some (a, b) => some (String.mk [a.toUpper, b.toUpper])
      | none =>
        match searchP3 sp w none cs with
        | some (a, b) => some (String.mk [a.toUpper, b.toUpper])
        | none => none

/-- `extrair_uf` at the ASCII instantiation of the three classes: on an
ASCII address this computes exactly what the source computes, since the
matchers inspect only characters of the input and the ASCII classes
agree with Python's tables on every ASCII character. -/
def extrair_uf_ascii (endereco : Option String) : Option String :=
  extrair_uf isWordAscii isSpaceAscii isDigitAscii endereco

/-! ### Typed entity models

The enrichers `transformar_agencias`, `transformar_transacoes` and
`transformar_propostas` are modelled over typed record lists carrying
the fields the computations touch.  Fields the claims never read and
that do not feed back into the modelled ones (dates, `mes_ano`, the
monthly `evolucao` total — merged on the unique `mes_ano` key, so row
count and the other columns are unchanged — and the `uf` label column
touched only by `aplicar_mapeamento`) are omitted from the records. -/

/-- Mean of a list of rationals (`GroupBy.mean`): sum over count.  The
source only evaluates it through a `map` lookup on a group that is
present, i.e. on a nonempty list. -/
def mediaValores (l : List ℚ) : ℚ := l.sum / l.length

/-- One row of the raw `transacoes` table (modelled fields). -/
structure Transacao where
  num_conta : String
  valor_transacao : ℚ
deriving DecidableEq, Repr

/-- One row of the raw `contas` table (modelled fields).  `contas` is
keyed by `num_conta` (one row per account). -/
structure Conta where
  num_conta : String
  cod_agencia : String
  saldo_disponivel : ℚ
deriving DecidableEq, Repr

/-- One row of the raw `agencias` table (modelled fields); keyed by
`cod_agencia`. -/
structure Agencia where
  cod_agencia : String
deriving DecidableEq, Repr

/-- `saldo_disponivel.replace(0, 1e-6)` (transform.py 218): a balance
of exactly 0 becomes `1e-6` before the division. -/
def replaceZero (s : ℚ) : ℚ :=
  if s = 0 then 1 / 1000000 else s

/-- `valor_transacao.abs() / saldo_disponivel.replace(0, 1e-6)`
(transform.py 218): the per-row amount-to-balance ratio. -/
def valorVsSaldo (valor : ℚ) (saldo : ℚ) : ℚ :=
  |valor| / replaceZero saldo

/-- One enriched `transacoes` row (modelled fields). -/
structure TransacaoOut where
  num_conta : String
  valor_transacao : ℚ
  valor_medio_conta : ℚ
  valor_vs_saldo : Option ℚ
  freq_transacoes : Nat
deriving DecidableEq, Repr

/-- `transformar_transacoes(transacoes, contas)` (transform.py 199-232),
in source order: the left join with
`contas[['num_conta', 'saldo_disponivel']]` (a per-`num_conta` lookup,
since `contas` is keyed by `num_conta`; a transaction without a matching
account gets a NaN balance and hence a NaN ratio), then
`valor_medio_conta` = per-account mean of the *raw* amounts, then the
ratio `valor_vs_saldo` on the *raw* amount and the joined balance, then
`freq_transacoes` = per-account row count, and only afterwards the
amount itself is clipped to ±1e6 (twice, as in the source, lines
224-228). -/
def transformar_transacoes (transacoes : List Transacao)
    (contas : List Conta) : List TransacaoOut :=
  transacoes.map (fun t =>
    let grupo := transacoes.filter (fun u => u.num_conta = t.num_conta)
    { num_conta := t.num_conta
      valor_transacao := clipAmount (clipAmount t.valor_transacao)
      valor_medio_conta := mediaValores (grupo.map (·.valor_transacao))
      valor_vs_saldo :=
        (contas.find? (fun c => c.num_conta = t.num_conta)).map
          (fun c => valorVsSaldo t.valor_transacao c.saldo_disponivel)
      freq_transacoes := grupo.length })

/-- One enriched `agencias` row (modelled fields).  The three derived
columns come from `Series.map` over a groupby result, so a branch whose
key is absent from the grouped table gets NaN (`none`). -/
structure AgenciaOut where
  cod_agencia : String
  saldo_medio : Option ℚ
  num_contas : Option Nat
  volume_transacoes : Option ℚ
deriving DecidableEq, Repr

/-- `pd.merge(contas, agencias, on='cod_agencia', how='left')`
(transform.py 176) restricted to the modelled fields: every account row
is kept, duplicated once per matching branch row (fan-out); the columns
contributed by `agencias` are not among the modelled fields. -/
def mergeContasAgencias (contas : List Conta) (agencias : List Agencia) :
    List Conta :=
  contas.flatMap (fun c =>
    match agencias.filter (fun a => a.cod_agencia = c.cod_agencia) with
    | [] => [c]
    | l => l.map (fun _ => c))

/-- `pd.merge(transacoes, contas, on='num_conta', how='left')`
(transform.py 177) restricted to the modelled fields: each transaction
row, duplicated once per matching account row, paired with that row's
`cod_agencia` (`none` — NaN — when no account matches). -/
def mergeTransacoesContas (transacoes : List Transacao)
    (contas : List Conta) : List (Transacao × Option String) :=
  transacoes.flatMap (fun t =>
    match contas.filter (fun c => c.num_conta = t.num_conta) with
    | [] => [(t, none)]
    | l => l.map (fun c => (t, some c.cod_agencia)))

/-- `pd.merge(transacoes_contas, agencias, on='cod_agencia',
how='left')` (transform.py 178) restricted to the modelled fields: each
row duplicated once per matching branch row; rows with no match (NaN
key included) are kept once. -/
def mergeTransacoesAgencias (tc : List (Transacao × Option String))
    (agencias : List Agencia) : List (Transacao × Option String) :=
  tc.flatMap (fun p =>
    match agencias.filter (fun a => some a.cod_agencia = p.2) with
    | [] => [p]
    | l => l.map (fun _ => p))

/-- `transformar_agencias(agencias, contas, transacoes)`
(transform.py 170-190): build the two merged fact tables, then derive
per branch, via `Series.map` over a groupby of the merged accounts
(mean balance, account count) and of the merged transactions (amount
sum), each `none` when the branch's key is absent from the grouped
table (`Series.map` yields NaN for a missing key; `groupby` drops the
NaN key group). -/
def transformar_agencias (agencias : List Agencia) (contas : List Conta)
    (transacoes : List Transacao) : List AgenciaOut :=
  let contasM := mergeContasAgencias contas agencias
  let ta := mergeTransacoesAgencias
    (mergeTransacoesContas transacoes contasM) agencias
  agencias.map (fun a =>
    let gContas := contasM.filter (fun c => c.cod_agencia = a.cod_agencia)
    let gTrans := ta.filter (fun p => p.2 = some a.cod_agencia)
    { cod_agencia := a.cod_agencia
      saldo_medio :=
        if gContas.isEmpty then none
        else some (mediaValores (gContas.map (·.saldo_disponivel)))
      num_contas := if gContas.isEmpty then none else some gContas.length
      volume_transacoes :=
        if gTrans.isEmpty then none
        else some ((gTrans.map (fun p => p.1.valor_transacao)).sum) })

/-- One row of the raw `propostas_credito` table (modelled fields). -/
structure Proposta where
  cod_colaborador : String
  cod_cliente : String
  status_proposta : String
  valor_proposta : ℚ
deriving DecidableEq, Repr

/-- Per-collaborator approval rate (transform.py 238-252):
`(status == 'Aprovada').sum()` over the collaborator's proposals,
divided by the collaborator's total proposal count across all statuses,
times 100. -/
def taxaAprovacaoColab (ps : List Proposta) (colab : String) : ℚ :=
  ((ps.countP (fun p =>
      p.cod_colaborador = colab ∧ p.status_proposta = "Aprovada") : ℚ) /
    (ps.countP (fun p => p.cod_colaborador = colab) : ℚ)) * 100

/-- Per-client approval rate (transform.py 254-269), same ratio keyed
by `cod_cliente`. -/
def taxaAprovacaoCliente (ps : List Proposta) (cliente : String) : ℚ :=
  ((ps.countP (fun p =>
      p.cod_cliente = cliente ∧ p.status_proposta = "Aprovada") : ℚ) /
    (ps.countP (fun p => p.cod_cliente = cliente) : ℚ)) * 100

/-- Per-(status, client) mean proposal value (transform.py 272-275). -/
def mediaStatusCliente (ps : List Proposta) (status cliente : String) : ℚ :=
  mediaValores ((ps.filter (fun p =>
    p.status_proposta = status ∧ p.cod_cliente = cliente)).map
      (·.valor_proposta))

/-- One enriched `propostas_credito` row.  The groupby-derived columns
are joined back on keys taken from the same table, so every row finds
its own (nonempty) group and the joined values are never NaN. -/
structure PropostaOut where
  cod_colaborador : String
  cod_cliente : String
  status_proposta : String
  valor_proposta : ℚ
  taxa_aprovacao_colab : ℚ
  taxa_aprovacao_cliente : ℚ
  media_status_cliente : ℚ
  total_propostas_cliente : Nat
  diferenca_media_cliente : ℚ
deriving DecidableEq, Repr

/-- `transformar_propostas(propostas_credito)` (transform.py 234-306):
left-join the per-collaborator and per-client approval rates, the
per-(status, client) mean value and the per-client proposal count back
onto every row (each key comes from the row itself, so each lookup
hits its own group), derive
`diferenca_media_cliente = valor_proposta - media_status_cliente`, and
finally zero out both approval-rate columns on every row whose
`status_proposta` is not `'Aprovada'` (lines 296-304). -/
def transformar_propostas (ps : List Proposta) : List PropostaOut :=
  let merged := ps.map (fun p =>
    let media := mediaStatusCliente ps p.status_proposta p.cod_cliente
    { cod_colaborador := p.cod_colaborador
      cod_cliente := p.cod_cliente
      status_proposta := p.status_proposta
      valor_proposta := p.valor_proposta
      taxa_aprovacao_colab := taxaAprovacaoColab ps p.cod_colaborador
      taxa_aprovacao_cliente := taxaAprovacaoCliente ps p.cod_cliente
      media_status_cliente := media
      total_propostas_cliente := ps.countP (fun q => q.cod_cliente = p.cod_cliente)
      diferenca_media_cliente := p.valor_proposta - media : PropostaOut })
  (merged.map (fun q =>
    { q with taxa_aprovacao_colab :=
        if q.status_proposta = "Aprovada" then q.taxa_aprovacao_colab
        else 0 })).map (fun q =>
    { q with taxa_aprovacao_cliente :=
        if q.status_proposta = "Aprovada" then q.taxa_aprovacao_cliente
        else 0 })

/-! ### Client tenure (transform.py 162-163)

`pd.to_datetime(clientes['data_inclusao'], errors='coerce')` turns an
unparsable inclusion date into NaT; the model starts from the parsed
column, as the elapsed days since inclusion (`none` for NaT).  The
tenure is `((now - data_inclusao).dt.days / 30).round().astype(int)`:
NaT propagates to a NaN day count and a NaN rounded value, and
`astype(int)` raises `ValueError` on any non-finite value instead of
producing a nullable integer. -/

/-- NumPy/pandas `.round()`: round half to even. -/
def roundHalfEven (q : ℚ) : ℤ :=
  let f := ⌊q⌋
  let frac := q - f
  if frac < 1 / 2 then f
  else if 1 / 2 < frac then f + 1
  else if f % 2 = 0 then f else f + 1

/-- `(days / 30).round()` for one row; NaT (`none`) propagates. -/
def tempoComoClienteMeses (diasDesdeInclusao : Option ℤ) : Option ℤ :=
  diasDesdeInclusao.map (fun d => roundHalfEven ((d : ℚ) / 30))

/-- `Series.astype(int)`: succeeds with the integer column when every
value is finite, raises `ValueError` when any value is NaN. -/
def astypeInt (col : List (Option ℤ)) : Except String (List ℤ) :=
  match col.mapM id with
  | some l => .ok l
  | none =>
    .error "Cannot convert non-finite values (NA or inf) to integer"

/-- The `tempo_como_cliente_meses` column of `transformar_clientes`
(transform.py 163), from the parsed per-row day counts: per-row
`round(days / 30)` followed by the non-nullable `astype(int)` cast. -/
def tempoComoClienteColuna (diasDesdeInclusao : List (Option ℤ)) :
    Except String (List ℤ) :=
  astypeInt (diasDesdeInclusao.map tempoComoClienteMeses)

/-! ### List infrastructure lemmas -/

theorem set_getD_eq {α : Type} (l : List α) (i : Nat) (d : α) :
    l.set i (l.getD i d) = l := by
  induction l generalizing i with
  | nil => rfl
  | cons a as ih =>
    cases i with
    | zero => rfl
    | succ n => simpa [List.set, List.getD] using ih n

theorem getD_set_lt {α : Type} (l : List α) (i : Nat) (v d : α)
    (h : i < l.length) : (l.set i v).getD i d = v := by
  induction l generalizing i with
  | nil => simp at h
  | cons a as ih =>
    cases i with
    | zero => rfl
    | succ n => simpa [List.set, List.getD] using ih n (by simpa using h)

theorem getD_set_ne {α : Type} (l : List α) (i j : Nat) (v d : α)
    (h : i ≠ j) : (l.set i v).getD j d = l.getD j d := by
  induction l generalizing i j with
  | nil => rfl
  | cons a as ih =>
    cases i with
    | zero =>
      cases j with
      | zero => exact absurd rfl h
      | succ m => rfl
    | succ n =>
      cases j with
      | zero => rfl
      | succ m =>
        simpa [List.set, List.getD] using ih n m (by omega)

theorem getD_map_of_lt {α β : Type} (f : α → β) (l : List α) (i : Nat)
    (d : β) (e : α) (h : i < l.length) :
    (l.map f).getD i d = f (l.getD i e) := by
  induction l generalizing i with
  | nil => simp at h
  | cons a as ih =>
    cases i with
    | zero => rfl
    | succ n => simpa [List.getD] using ih n (by simpa using h)

theorem getD_append_length {α : Type} (l : List α) (x d : α) :
    (l ++ [x]).getD l.length d = x := by
  induction l with
  | nil => rfl
  | cons a as ih => simp [List.getD]

theorem getD_mem_of_lt {α : Type} (l : List α) (i : Nat) (d : α)
    (h : i < l.length) : l.getD i d ∈ l := by
  induction l generalizing i with
  | nil => simp at h
  | cons a as ih =>
    cases i with
    | zero => exact List.mem_cons_self a as
    | succ n =>
      exact List.mem_cons_of_mem a (ih n (by simpa using h))

theorem indexOf?_eq_none_of_not_mem (cs : List String) (c : String)
    (h : c ∉ cs) : cs.indexOf? c = none := by
  rw [List.indexOf?_eq_none_iff]
  intro x hx
  simp only [beq_iff_eq]
  rintro rfl
  exact h hx

theorem indexOf?_some_of_mem (cs : List String) (c : String)
    (h : c ∈ cs) :
    ∃ p, cs.indexOf? c = some p ∧ p < cs.length ∧ cs.getD p "" = c := by
  induction cs with
  | nil => simp at h
  | cons x xs ih =>
    by_cases hx : x = c
    · exact ⟨0, by simp [List.indexOf?_cons, hx], by simp, hx⟩
    · have hm : c ∈ xs := by
        rcases List.mem_cons.mp h with h1 | h1
        · exact absurd h1.symm hx
        · exact h1
      obtain ⟨p, hp, hlt, hget⟩ := ih hm
      refine ⟨p + 1, ?_, by simpa using Nat.succ_lt_succ hlt, hget⟩
      simp [List.indexOf?_cons, hx, hp]

theorem indexOf?_append_singleton (cs : List String) (c : String)
    (h : c ∉ cs) : (cs ++ [c]).indexOf? c = some cs.length := by
  induction cs with
  | nil => simp [List.indexOf?_cons]
  | cons x xs ih =>
    have hx : x ≠ c := fun e => h (e ▸ List.mem_cons_self x xs)
    have hm : c ∉ xs := fun m => h (List.mem_cons_of_mem x m)
    simp [List.indexOf?_cons, hx, ih hm]

theorem lookup_map_pair_self (vs : List String) (v : String)
    (h : v ∈ vs) : (vs.map (fun x => (x, x))).lookup v = some v := by
  induction vs with
  | nil => simp at h
  | cons x xs ih =>
    by_cases hx : v = x
    · simp [List.lookup, hx]
    · have hm : v ∈ xs := by
        rcases List.mem_cons.mp h with h1 | h1
        · exact absurd h1 hx
        · exact h1
      have hb : (v == x) = false := beq_eq_false_iff_ne.mpr hx
      simp [List.lookup, hb, ih hm]

theorem mem_pyInsert (x a : String) (n : Nat) (l : List String) :
    x ∈ pyInsert n a l ↔ x = a ∨ x ∈ l := by
  unfold pyInsert
  by_cases h : n ≤ l.length
  · simp [h, List.mem_insertIdx h]
  · simp [h, or_comm]

theorem getD_eq_default_of_le {α : Type} (l : List α) (i : Nat) (d : α)
    (h : l.length ≤ i) : l.getD i d = d := by
  induction l generalizing i with
  | nil => cases i <;> rfl
  | cons a as ih =>
    cases i with
    | zero => simp at h
    | succ n =>
      simp only [List.getD] at ih ⊢
      exact ih n (by simpa using h)

/-! ### Claim theorems -/

/-- C6: clipping of transaction amounts to the closed interval
[-1,000,000, 1,000,000] is idempotent; every amount below the interval
is sent exactly to -1,000,000, every amount above it exactly to
1,000,000, and amounts inside the interval are unchanged. -/
theorem clipAmount_spec (x : ℚ) :
    clipAmount (clipAmount x) = clipAmount x ∧
    (x < -1000000 → clipAmount x = -1000000) ∧
    (1000000 < x → clipAmount x = 1000000) ∧
    (-1000000 ≤ x → x ≤ 1000000 → clipAmount x = x) := by
  have hlb : (-1000000 : ℚ) ≤ 1000000 := by norm_num
  unfold clipAmount
  refine ⟨?_, ?_, ?_, ?_⟩
  · have h1 : (-1000000 : ℚ) ≤ min (max x (-1000000)) 1000000 :=
      le_min (le_max_right _ _) hlb
    have h2 : min (max x (-1000000)) 1000000 ≤ (1000000 : ℚ) :=
      min_le_right _ _
    rw [max_eq_left h1, min_eq_left h2]
  · intro h
    rw [max_eq_right (le_of_lt h), min_eq_left hlb]
  · intro h
    rw [max_eq_left (le_trans hlb (le_of_lt h)), min_eq_right (le_of_lt h)]
  · intro h1 h2
    rw [max_eq_left h1, min_eq_left h2]

/-- Witness for `clipAmount_spec`: concrete evaluations at 2,500,000,
-2,500,000 and 7. -/
theorem clipAmount_spec_witness :
    clipAmount (clipAmount 7) = clipAmount 7 ∧
    ((1000000 : ℚ) < 2500000 ∧ clipAmount 2500000 = 1000000) ∧
    ((-2500000 : ℚ) < -1000000 ∧ clipAmount (-2500000) = -1000000) ∧
    ((-1000000 : ℚ) ≤ 7 ∧ (7 : ℚ) ≤ 1000000 ∧ clipAmount 7 = 7) :=
  ⟨(clipAmount_spec 7).1,
   ⟨by norm_num, (clipAmount_spec 2500000).2.2.1 (by norm_num)⟩,
   ⟨by norm_num, (clipAmount_spec (-2500000)).2.1 (by norm_num)⟩,
   ⟨by norm_num, by norm_num,
    (clipAmount_spec 7).2.2.2 (by norm_num) (by norm_num)⟩⟩

/-- C9: the amount-to-balance ratio never divides by zero: the
denominator `replaceZero s` is nonzero for every balance `s`, the ratio
equals |amount| / balance whenever the balance is nonzero, a zero
balance is replaced by 1e-6 (yielding |amount| · 1,000,000), and every
enriched transaction row's `valor_vs_saldo` is obtained through
`valorVsSaldo` from some raw transaction row and its joined balance. -/
theorem valor_vs_saldo_spec (v s : ℚ) (ts : List Transacao)
    (cs : List Conta) :
    replaceZero s ≠ 0 ∧
    (s ≠ 0 → valorVsSaldo v s = |v| / s) ∧
    valorVsSaldo v 0 = |v| * 1000000 ∧
    (∀ o ∈ transformar_transacoes ts cs, ∃ t ∈ ts,
      o.valor_vs_saldo =
        (cs.find? (fun c => c.num_conta = t.num_conta)).map
          (fun c => valorVsSaldo t.valor_transacao c.saldo_disponivel)) := by
  refine ⟨?_, ?_, ?_, ?_⟩
  · unfold replaceZero
    split
    · norm_num
    · assumption
  · intro h
    unfold valorVsSaldo replaceZero
    rw [if_neg h]
  · unfold valorVsSaldo replaceZero
    rw [if_pos rfl]
    rw [show ((1 : ℚ) / 1000000) = ((1000000 : ℚ))⁻¹ by norm_num,
      div_eq_mul_inv, inv_inv]
  · intro o ho
    unfold transformar_transacoes at ho
    obtain ⟨t, ht, rfl⟩ := List.mem_map.mp ho
    exact ⟨t, ht, rfl⟩

/-- C8: the tenure computation of `transformar_clientes`
(transform.py 163) does not coerce an unparsable inclusion date to a
null tenure: the `.astype(int)` cast raises `ValueError` as soon as the
parsed-date column contains a NaT, while a fully parsable column
succeeds (90 days → 3 months). -/
theorem tempo_como_cliente_astype_raises :
    tempoComoClienteColuna [some 3650, none] =
      Except.error "Cannot convert non-finite values (NA or inf) to integer" ∧
    tempoComoClienteColuna [some 90] = Except.ok [3] := by
  constructor
  · rfl
  · norm_num [tempoComoClienteColuna, astypeInt, tempoComoClienteMeses,
      roundHalfEven, List.mapM, List.mapM.loop]

/-- C5: state extraction returns null on a missing address; otherwise
it tries pattern 1 (slash), pattern 2 (postal code), pattern 3 (bare
trailing token) in this fixed order and returns the first captured
group uppercased (pattern 1 wins unconditionally; pattern 2 only when
pattern 1 found nothing; pattern 3 only when both failed), null when
none match; every non-null result has exactly two characters.  These
properties hold for every instantiation of the `\w`, `\s`, `\d`
character classes, in particular for Python's Unicode tables.  At the
ASCII instantiation — exact for these ASCII inputs —
"Av. Paulista, 1000 / SP" yields "SP", "Rua A 01310-100 RS" yields
"RS", "sem estado" yields null, and the `$` anchor really is an
end-of-string anchor: "AB cd\n" and "RS 01310-100x\n", whose trailing
text before the final newline defeats `$`, both yield null. -/
theorem extrair_uf_spec :
    (∀ w sp d : Char → Bool, extrair_uf w sp d none = none) ∧
    (∀ (w sp d : Char → Bool) (s : String),
      extrair_uf w sp d (some s) = none ∨
      ∃ r, extrair_uf w sp d (some s) = some r ∧ r.length = 2) ∧
    (∀ (w sp d : Char → Bool) (s : String) (a b : Char),
      searchP1 sp w s.toList = some (a, b) →
      extrair_uf w sp d (some s) = some (String.mk [a.toUpper, b.toUpper])) ∧
    (∀ (w sp d : Char → Bool) (s : String) (a b : Char),
      searchP1 sp w s.toList = none →
      searchP2 sp d w none s.toList = some (a, b) →
      extrair_uf w sp d (some s) = some (String.mk [a.toUpper, b.toUpper])) ∧
    (∀ (w sp d : Char → Bool) (s : String) (a b : Char),
      searchP1 sp w s.toList = none →
      searchP2 sp d w none s.toList = none →
      searchP3 sp w none s.toList = some (a, b) →
      extrair_uf w sp d (some s) = some (String.mk [a.toUpper, b.toUpper])) ∧
    (∀ (w sp d : Char → Bool) (s : String),
      searchP1 sp w s.toList = none →
      searchP2 sp d w none s.toList = none →
      searchP3 sp w none s.toList = none →
      extrair_uf w sp d (some s) = none) ∧
    extrair_uf_ascii (some "Av. Paulista, 1000 / SP") = some "SP" ∧
    extrair_uf_ascii (some "Rua A 01310-100 RS") = some "RS" ∧
    extrair_uf_ascii (some "sem estado") = none ∧
    extrair_uf_ascii (some "AB cd\n") = none ∧
    extrair_uf_ascii (some "RS 01310-100x\n") = none := by
  have huf : ∀ (w sp d : Char → Bool) (s : String),
      extrair_uf w sp d (some s) =
      (match searchP1 sp w s.toList with
      | some (a, b) => some (String.mk [a.toUpper, b.toUpper])
      | none =>
        match searchP2 sp d w none s.toList with
        | some (a, b) => some (String.mk [a.toUpper, b.toUpper])
        | none =>
          match searchP3 sp w none s.toList with
          | some (a, b) => some (String.mk [a.toUpper, b.toUpper])
          | none => none) := fun w sp d s => rfl
  refine ⟨fun w sp d => rfl, ?_, ?_, ?_, ?_, ?_,
    by decide, by decide, by decide, by decide, by decide⟩
  · intro w sp d s
    rw [huf w sp d s]
    rcases h1 : searchP1 sp w s.toList with _ | ⟨a, b⟩
    · rcases h2 : searchP2 sp d w none s.toList with _ | ⟨a, b⟩
      · rcases h3 : searchP3 sp w none s.toList with _ | ⟨a, b⟩
        · exact Or.inl rfl
        · exact Or.inr ⟨_, rfl, rfl⟩
      · exact Or.inr ⟨_, rfl, rfl⟩
    · exact Or.inr ⟨_, rfl, rfl⟩
  · intro w sp d s a b h
    rw [huf w sp d s, h]
  · intro w sp d s a b h1 h2
    rw [huf w sp d s, h1, h2]
  · intro w sp d s a b h1 h2 h3
    rw [huf w sp d s, h1, h2, h3]
  · intro w sp d s h1 h2 h3
    rw [huf w sp d s, h1, h2, h3]

/-- The fallback map is the identity on every cell actually present in
the column: mapping a value of the column through
`\x7bk: k for k in df[coluna].unique()\x7d` and filling NaNs back
returns the value itself. -/
theorem mapCell_fallback_id (df : DataFrame) (i : Nat) (r : List Cell)
    (hr : r ∈ df.rows) :
    mapCell (fallbackMap df i) (r.getD i none) = r.getD i none := by
  cases h : r.getD i none with
  | none => rfl
  | some v =>
    have hv : v ∈ ((df.rows.map (fun r => r.getD i none)).filterMap id).dedup := by
      rw [List.mem_dedup]
      exact List.mem_filterMap.mpr ⟨some v, List.mem_map.mpr ⟨r, hr, h⟩, rfl⟩
    have hl : (fallbackMap df i).lookup v = some v := by
      unfold fallbackMap
      exact lookup_map_pair_self _ _ hv
    simp [mapCell, hl]

/-- `aplicar_mapeamento` with an invalid mapping argument falls back to
the identity mapping and returns the table unchanged. -/
theorem aplicar_mapeamento_invalid_eq (df : DataFrame) (coluna : String) :
    aplicar_mapeamento df coluna .invalid = df := by
  unfold aplicar_mapeamento
  cases h : df.cols.indexOf? coluna with
  | none => rfl
  | some i =>
    cases df with
    | mk cols rows =>
      simp only [DataFrame.mk.injEq, true_and]
      have : ∀ r ∈ rows,
          r.set i (mapCell (safeMapOf ⟨cols, rows⟩ i .invalid) (r.getD i none)) = r := by
        intro r hr
        rw [show safeMapOf ⟨cols, rows⟩ i .invalid = fallbackMap ⟨cols, rows⟩ i from rfl,
          mapCell_fallback_id ⟨cols, rows⟩ i r hr, set_getD_eq]
      calc rows.map (fun r =>
              r.set i (mapCell (safeMapOf ⟨cols, rows⟩ i .invalid) (r.getD i none)))
          = rows.map id := List.map_congr_left this
        _ = rows := List.map_id rows

/-- C4: mapping application is a no-op when the column is absent;
with a valid mapping it rewrites exactly the named column cell-wise
through `mapCell`, which replaces a value found as a key by its label,
keeps a value absent from the mapping unchanged, and never turns a
non-null cell into null (a null cell stays null); an invalid mapping
argument falls back to the identity mapping, returning the table
unchanged, so no failure propagates. -/
theorem aplicar_mapeamento_spec (df : DataFrame) (coluna : String)
    (m : Mapeamento) :
    (coluna ∉ df.cols → aplicar_mapeamento df coluna m = df) ∧
    aplicar_mapeamento df coluna .invalid = df ∧
    (∀ (l : List (String × String)) (i : Nat),
      df.cols.indexOf? coluna = some i →
      aplicar_mapeamento df coluna (.valid l) =
        ⟨df.cols, df.rows.map (fun r => r.set i (mapCell l (r.getD i none)))⟩) ∧
    (∀ (l : List (String × String)) (v lab : String),
      l.lookup v = some lab → mapCell l (some v) = some lab) ∧
    (∀ (l : List (String × String)) (v : String),
      l.lookup v = none → mapCell l (some v) = some v) ∧
    (∀ l : List (String × String), mapCell l none = none) := by
  refine ⟨?_, aplicar_mapeamento_invalid_eq df coluna, ?_, ?_, ?_, ?_⟩
  · intro h
    unfold aplicar_mapeamento
    rw [indexOf?_eq_none_of_not_mem _ _ h]
  · intro l i h
    unfold aplicar_mapeamento
    rw [h]
    rfl
  · intro l v lab h
    simp [mapCell, h]
  · intro l v h
    simp [mapCell, h]
  · intro l
    rfl

/-- C10 (frame property): mapping application preserves the column-name
list, the row count yes and the row order, and touches no column other
than the named one: at every row position `n` and every column position
`j` other than the named column's, the cell is unchanged. -/
theorem aplicar_mapeamento_frame (df : DataFrame) (coluna : String)
    (m : Mapeamento) (n j : Nat) :
    (aplicar_mapeamento df coluna m).cols = df.cols ∧
    (aplicar_mapeamento df coluna m).rows.length = df.rows.length ∧
    (df.cols.indexOf? coluna ≠ some j →
      ((aplicar_mapeamento df coluna m).rows.getD n []).getD j none =
        (df.rows.getD n []).getD j none) := by
  unfold aplicar_mapeamento
  cases h : df.cols.indexOf? coluna with
  | none => exact ⟨rfl, rfl, fun _ => rfl⟩
  | some i =>
    refine ⟨rfl, by simp, ?_⟩
    intro hij
    have hne : i ≠ j := fun e => hij (e ▸ h ▸ rfl)
    by_cases hn : n < df.rows.length
    · rw [getD_map_of_lt _ _ _ _ [] hn]
      exact getD_set_ne _ _ _ _ _ hne
    · have hlen : df.rows.length ≤ n := Nat.le_of_not_lt hn
      have e1 : (df.rows.map (fun r =>
          r.set i (mapCell (safeMapOf df i m) (r.getD i none)))).getD n [] =
            ([] : List Cell) :=
        getD_eq_default_of_le _ _ _ (by simpa using hlen)
      have e2 : df.rows.getD n [] = ([] : List Cell) :=
        getD_eq_default_of_le _ _ _ hlen
      rw [e1, e2]

/-- C1 counterexample: in the claimed scenario (account `A1`, amounts
[100, -2,500,000], balance 500) the enriched per-account mean is
-1,249,950 — the mean is computed at transform.py 213 from the *raw*
amounts, before the clipping at lines 224-228 — and the second row's
ratio is 5000 = 2,500,000/500, also computed from the raw amount
(line 218), so the claimed values -499,950 and 2000 are wrong. -/
theorem transacoes_scenario_counterexample :
    (transformar_transacoes [⟨"A1", 100⟩, ⟨"A1", -2500000⟩]
        [⟨"A1", "B1", 500⟩]).map (·.valor_medio_conta) =
      [-1249950, -1249950] ∧
    ((-1249950 : ℚ) ≠ -499950) ∧
    (transformar_transacoes [⟨"A1", 100⟩, ⟨"A1", -2500000⟩]
        [⟨"A1", "B1", 500⟩]).map (·.valor_vs_saldo) =
      [some (1 / 5), some 5000] ∧
    ((5000 : ℚ) ≠ 2000) := by
  refine ⟨?_, by norm_num, ?_, by norm_num⟩
  · norm_num [transformar_transacoes, mediaValores, List.filter]
  · norm_num [transformar_transacoes, valorVsSaldo, replaceZero,
      List.find?, List.filter]

/-- C1 (amended): for account `A1` with amounts [100, -2,500,000] and
balance 500, the enriched outputs are clipped amounts
[100, -1,000,000], per-account mean -1,249,950 (computed on the raw
amounts before clipping), ratios 0.2 and 5000 (raw amount over
balance), and frequency 2 on both rows. -/
theorem transacoes_scenario_amended :
    (transformar_transacoes [⟨"A1", 100⟩, ⟨"A1", -2500000⟩]
        [⟨"A1", "B1", 500⟩]).map (·.valor_transacao) =
      [100, -1000000] ∧
    (transformar_transacoes [⟨"A1", 100⟩, ⟨"A1", -2500000⟩]
        [⟨"A1", "B1", 500⟩]).map (·.valor_medio_conta) =
      [-1249950, -1249950] ∧
    (transformar_transacoes [⟨"A1", 100⟩, ⟨"A1", -2500000⟩]
        [⟨"A1", "B1", 500⟩]).map (·.valor_vs_saldo) =
      [some (1 / 5), some 5000] ∧
    (transformar_transacoes [⟨"A1", 100⟩, ⟨"A1", -2500000⟩]
        [⟨"A1", "B1", 500⟩]).map (·.freq_transacoes) = [2, 2] := by
  refine ⟨?_, ?_, ?_, ?_⟩
  · norm_num [transformar_transacoes, clipAmount, List.filter]
  · norm_num [transformar_transacoes, mediaValores, List.filter]
  · norm_num [transformar_transacoes, valorVsSaldo, replaceZero,
      List.find?, List.filter]
  · norm_num [transformar_transacoes, List.filter]

/-- Every row of the account⨝branch merge is one of the raw account
rows (the merge only duplicates or keeps rows). -/
theorem mem_mergeContasAgencias (cs : List Conta) (ags : List Agencia)
    (x : Conta) (hx : x ∈ mergeContasAgencias cs ags) : x ∈ cs := by
  unfold mergeContasAgencias at hx
  obtain ⟨c, hc, hm⟩ := List.mem_flatMap.mp hx
  revert hm
  split
  · intro hm
    rwa [List.mem_singleton.mp hm]
  · intro hm
    obtain ⟨_, _, rfl⟩ := List.mem_map.mp hm
    exact hc

/-- In the transaction⨝account merge, a non-null branch key on a row
always comes from some merged account row with that key. -/
theorem mem_mergeTransacoesContas_cod (ts : List Transacao)
    (cm : List Conta) (p : Transacao × Option String)
    (hp : p ∈ mergeTransacoesContas ts cm) (b : String)
    (hb : p.2 = some b) : ∃ c ∈ cm, c.cod_agencia = b := by
  unfold mergeTransacoesContas at hp
  obtain ⟨t, ht, hm⟩ := List.mem_flatMap.mp hp
  revert hm
  split
  · intro hm
    rw [List.mem_singleton.mp hm] at hb
    simp at hb
  · intro hm
    obtain ⟨c, hc, rfl⟩ := List.mem_map.mp hm
    simp only at hb
    exact ⟨c, (List.mem_filter.mp hc).1, by injection hb⟩

/-- The transaction⨝branch merge only duplicates or keeps rows. -/
theorem mem_mergeTransacoesAgencias (tc : List (Transacao × Option String))
    (ags : List Agencia) (p : Transacao × Option String)
    (hp : p ∈ mergeTransacoesAgencias tc ags) : p ∈ tc := by
  unfold mergeTransacoesAgencias at hp
  obtain ⟨q, hq, hm⟩ := List.mem_flatMap.mp hp
  revert hm
  split
  · intro hm
    rwa [List.mem_singleton.mp hm]
  · intro hm
    obtain ⟨_, _, rfl⟩ := List.mem_map.mp hm
    exact hq

/-- C3 counterexample: a branch with zero matching accounts gets a
*null* `num_contas`, not 0 — `Series.map` over the groupby result
yields NaN for a key absent from the grouped table. -/
theorem agencias_zero_contas_counterexample :
    (transformar_agencias [⟨"B1"⟩] [] []).map (·.num_contas) = [none] ∧
    (none : Option Nat) ≠ some 0 := by
  constructor
  · rfl
  · simp

/-- C3 (amended): a branch with zero matching accounts receives null
for all three aggregates — mean balance, account count and transaction
volume; the count is null as well, not 0, because the broadcast is a
`Series.map` lookup that misses for an absent group. -/
theorem agencias_zero_contas_null (ags : List Agencia) (cs : List Conta)
    (ts : List Transacao) (a : AgenciaOut)
    (ha : a ∈ transformar_agencias ags cs ts)
    (h0 : ∀ c ∈ cs, c.cod_agencia ≠ a.cod_agencia) :
    a.saldo_medio = none ∧ a.num_contas = none ∧
      a.volume_transacoes = none := by
  unfold transformar_agencias at ha
  obtain ⟨a0, ha0, rfl⟩ := List.mem_map.mp ha
  simp only
  have hgc : (mergeContasAgencias cs ags).filter
      (fun c => c.cod_agencia = a0.cod_agencia) = [] := by
    rw [List.filter_eq_nil_iff]
    intro c hc
    simpa using h0 c (mem_mergeContasAgencias cs ags c hc)
  have hgt : (mergeTransacoesAgencias
      (mergeTransacoesContas ts (mergeContasAgencias cs ags)) ags).filter
      (fun p => p.2 = some a0.cod_agencia) = [] := by
    rw [List.filter_eq_nil_iff]
    intro p hp hcontra
    have hp2 : p.2 = some a0.cod_agencia := by simpa using hcontra
    have hptc := mem_mergeTransacoesAgencias _ ags p hp
    obtain ⟨c, hcm, hcod⟩ :=
      mem_mergeTransacoesContas_cod ts _ p hptc a0.cod_agencia hp2
    exact h0 c (mem_mergeContasAgencias cs ags c hcm) hcod
  rw [hgc, hgt]
  simp

/-- Witness for `agencias_zero_contas_null`: a concrete branch `B1`
with an account table containing only accounts of branch `B2`. -/
theorem agencias_zero_contas_null_witness :
    (⟨"B1", none, none, none⟩ : AgenciaOut) ∈
      transformar_agencias [⟨"B1"⟩] [⟨"A9", "B2", 70⟩] [⟨"A9", 40⟩] ∧
    ((⟨"B1", none, none, none⟩ : AgenciaOut).saldo_medio = none ∧
      (⟨"B1", none, none, none⟩ : AgenciaOut).num_contas = none ∧
      (⟨"B1", none, none, none⟩ : AgenciaOut).volume_transacoes = none) := by
  have hm : (⟨"B1", none, none, none⟩ : AgenciaOut) ∈
      transformar_agencias [⟨"B1"⟩] [⟨"A9", "B2", 70⟩] [⟨"A9", 40⟩] := by
    simp [transformar_agencias, mergeContasAgencias, mergeTransacoesContas,
      mergeTransacoesAgencias, List.filter]
  exact ⟨hm, agencias_zero_contas_null [⟨"B1"⟩] [⟨"A9", "B2", 70⟩]
    [⟨"A9", 40⟩] ⟨"B1", none, none, none⟩ hm (by decide)⟩

/-- C2: after proposal enrichment, every row whose status is not
"Aprovada" carries exactly 0 in both approval-rate columns, and every
"Aprovada" row carries, for the collaborator (resp. client), the count
of that entity's approved proposals divided by that entity's total
proposal count across all statuses, times 100. -/
theorem propostas_taxa_spec (ps : List Proposta) (q : PropostaOut)
    (hq : q ∈ transformar_propostas ps) :
    (q.status_proposta ≠ "Aprovada" →
      q.taxa_aprovacao_colab = 0 ∧ q.taxa_aprovacao_cliente = 0) ∧
    (q.status_proposta = "Aprovada" →
      q.taxa_aprovacao_colab =
        ((ps.countP (fun p => p.cod_colaborador = q.cod_colaborador ∧
            p.status_proposta = "Aprovada") : ℚ) /
          (ps.countP (fun p =>
            p.cod_colaborador = q.cod_colaborador) : ℚ)) * 100 ∧
      q.taxa_aprovacao_cliente =
        ((ps.countP (fun p => p.cod_cliente = q.cod_cliente ∧
            p.status_proposta = "Aprovada") : ℚ) /
          (ps.countP (fun p =>
            p.cod_cliente = q.cod_cliente) : ℚ)) * 100) := by
  unfold transformar_propostas at hq
  obtain ⟨q1, hq1, rfl⟩ := List.mem_map.mp hq
  obtain ⟨q0, hq0, rfl⟩ := List.mem_map.mp hq1
  obtain ⟨p, hp, rfl⟩ := List.mem_map.mp hq0
  constructor
  · intro hst
    simp only at hst
    simp [if_neg hst, hst]
  · intro hst
    simp only at hst
    simp only [hst, if_pos rfl]
    exact ⟨rfl, rfl⟩

/-- Witness for `propostas_taxa_spec`: two proposals of one
collaborator and one client, one approved and one refused; the refused
row's rates are 0, the approved row's rates are 1/2 · 100 = 50. -/
theorem propostas_taxa_spec_witness :
    ((⟨"E1", "C1", "Recusada", 200, 0, 0, 200, 2, 0⟩ : PropostaOut) ∈
      transformar_propostas
        [⟨"E1", "C1", "Aprovada", 100⟩, ⟨"E1", "C1", "Recusada", 200⟩] ∧
      (⟨"E1", "C1", "Recusada", 200, 0, 0, 200, 2, 0⟩ : PropostaOut).taxa_aprovacao_colab = 0 ∧
      (⟨"E1", "C1", "Recusada", 200, 0, 0, 200, 2, 0⟩ : PropostaOut).taxa_aprovacao_cliente = 0) ∧
    ((⟨"E1", "C1", "Aprovada", 100, 50, 50, 100, 2, 0⟩ : PropostaOut) ∈
      transformar_propostas
        [⟨"E1", "C1", "Aprovada", 100⟩, ⟨"E1", "C1", "Recusada", 200⟩] ∧
      (⟨"E1", "C1", "Aprovada", 100, 50, 50, 100, 2, 0⟩ : PropostaOut).taxa_aprovacao_colab = 50) := by
  have heval : transformar_propostas
      [⟨"E1", "C1", "Aprovada", 100⟩, ⟨"E1", "C1", "Recusada", 200⟩] =
      [⟨"E1", "C1", "Aprovada", 100, 50, 50, 100, 2, 0⟩,
       ⟨"E1", "C1", "Recusada", 200, 0, 0, 200, 2, 0⟩] := by
    simp +decide only [transformar_propostas, taxaAprovacaoColab,
      taxaAprovacaoCliente, mediaStatusCliente, mediaValores,
      List.countP, List.countP.go, List.filter, List.map]
    norm_num
  have hm1 : (⟨"E1", "C1", "Recusada", 200, 0, 0, 200, 2, 0⟩ : PropostaOut) ∈
      transformar_propostas
        [⟨"E1", "C1", "Aprovada", 100⟩, ⟨"E1", "C1", "Recusada", 200⟩] := by
    rw [heval]
    simp
  have hm2 : (⟨"E1", "C1", "Aprovada", 100, 50, 50, 100, 2, 0⟩ : PropostaOut) ∈
      transformar_propostas
        [⟨"E1", "C1", "Aprovada", 100⟩, ⟨"E1", "C1", "Recusada", 200⟩] := by
    rw [heval]
    simp
  refine ⟨⟨hm1, (propostas_taxa_spec _ _ hm1).1 (by decide)⟩, hm2, ?_⟩
  have h50 := ((propostas_taxa_spec _ _ hm2).2 (by decide)).1
  rw [h50]
  simp +decide only [List.countP, List.countP.go]
  norm_num

/-- Looking a column up by name in a row that was rebuilt as
`cs.map g` returns `g` at that column name, provided the name occurs
in `cs`. -/
theorem getCellByName_map_self (cs : List String) (g : String → Cell)
    (c : String) (h : c ∈ cs) : getCellByName cs (cs.map g) c = g c := by
  obtain ⟨p, hp, hlt, hget⟩ := indexOf?_some_of_mem cs c h
  unfold getCellByName
  rw [hp]
  show (cs.map g).getD p none = g c
  rw [getD_map_of_lt g cs p none "" hlt, hget]

/-- `processar_nome_completo` is the identity when either source name
column is missing. -/
theorem processar_nome_completo_of_missing (df : DataFrame)
    (h : ¬("primeiro_nome" ∈ df.cols ∧ "ultimo_nome" ∈ df.cols)) :
    processar_nome_completo df = df := by
  unfold processar_nome_completo
  rw [if_neg h]

/-- C7 counterexample: on a table whose only columns are the two name
columns, `processar_nome_completo` leaves `nome_completo` as the *only*
(first) column — there is no second column — so "the full-name field is
the second column" fails for this table even though both source columns
existed. -/
theorem processar_nome_completo_counterexample :
    (processar_nome_completo
        ⟨["primeiro_nome", "ultimo_nome"], [[some "Ana", some "Silva"]]⟩).cols =
      ["nome_completo"] ∧
    (processar_nome_completo
        ⟨["primeiro_nome", "ultimo_nome"], [[some "Ana", some "Silva"]]⟩).cols[1]? =
      none ∧
    (processar_nome_completo
        ⟨["primeiro_nome", "ultimo_nome"], [[some "Ana", some "Silva"]]⟩).rows =
      [[some "Ana Silva"]] := by
  refine ⟨by decide, by decide, by decide⟩

/-- C7 (amended): on a table missing either source name column the
transform is the identity; when both exist, the result contains
`nome_completo`, has dropped `primeiro_nome` and `ultimo_nome`, places
`nome_completo` at position 1 whenever the result still has at least
two columns (on a table whose only columns were the two name columns it
becomes the sole, first, column), and fills it with the space-joined
concatenation of the two source cells; applying the transform twice
equals applying it once, because the second application finds the
source columns gone. -/
theorem processar_nome_completo_amended (df : DataFrame)
    (hwf : ∀ r ∈ df.rows, r.length = df.cols.length) :
    (¬("primeiro_nome" ∈ df.cols ∧ "ultimo_nome" ∈ df.cols) →
      processar_nome_completo df = df) ∧
    ("primeiro_nome" ∈ df.cols ∧ "ultimo_nome" ∈ df.cols →
      "nome_completo" ∈ (processar_nome_completo df).cols ∧
      "primeiro_nome" ∉ (processar_nome_completo df).cols ∧
      "ultimo_nome" ∉ (processar_nome_completo df).cols ∧
      (2 ≤ (processar_nome_completo df).cols.length →
        (processar_nome_completo df).cols[1]? = some "nome_completo") ∧
      (∀ n, n < df.rows.length →
        getCellByName (processar_nome_completo df).cols
            ((processar_nome_completo df).rows.getD n []) "nome_completo" =
          concatCells
            (getCellByName df.cols (df.rows.getD n []) "primeiro_nome")
            (getCellByName df.cols (df.rows.getD n []) "ultimo_nome"))) ∧
    processar_nome_completo (processar_nome_completo df) =
      processar_nome_completo df := by
  by_cases hc : "primeiro_nome" ∈ df.cols ∧ "ultimo_nome" ∈ df.cols
  case neg =>
    refine ⟨fun _ => processar_nome_completo_of_missing df hc,
      fun h => absurd h hc, ?_⟩
    rw [processar_nome_completo_of_missing df hc]
    exact processar_nome_completo_of_missing df hc
  case pos =>
    set f : List Cell → Cell := fun r =>
      concatCells (getCellByName df.cols r "primeiro_nome")
        (getCellByName df.cols r "ultimo_nome") with hf
    set df1 := assignColumn df "nome_completo" f with hdf1
    set cs2 := df1.cols.filter
      (fun c => c ≠ "primeiro_nome" ∧ c ≠ "ultimo_nome") with hcs2
    set cs3 := pyInsert 1 "nome_completo" (cs2.erase "nome_completo")
      with hcs3
    have hout : processar_nome_completo df =
        selectCols (selectCols df1 cs2) cs3 := by
      unfold processar_nome_completo
      rw [if_pos hc]
      rfl
    have hnome1 : "nome_completo" ∈ df1.cols := by
      rw [hdf1]
      unfold assignColumn
      cases h : df.cols.indexOf? "nome_completo" with
      | some i =>
        obtain ⟨p, hp, hlt, hget⟩ :=
          indexOf?_some_of_mem df.cols "nome_completo" (by
            by_contra hnm
            rw [indexOf?_eq_none_of_not_mem _ _ hnm] at h
            cases h)
        by_contra hnm
        rw [indexOf?_eq_none_of_not_mem _ _ hnm] at h
        cases h
      | none => simp
    have hnome2 : "nome_completo" ∈ cs2 := by
      rw [hcs2]
      refine List.mem_filter.mpr ⟨hnome1, by decide⟩
    have hnome3 : "nome_completo" ∈ cs3 :=
      (mem_pyInsert _ _ _ _).mpr (Or.inl rfl)
    have hdrop : ∀ x : String, x ∈ cs3 → x ≠ "nome_completo" →
        (x ≠ "primeiro_nome" ∧ x ≠ "ultimo_nome") := by
      intro x hx hxn
      rcases (mem_pyInsert _ _ _ _).mp hx with he | he
      · exact absurd he hxn
      · have hmem := List.mem_of_mem_erase he
        have hp := (List.mem_filter.mp (hcs2 ▸ hmem)).2
        simpa using hp
    refine ⟨fun h => absurd hc h, fun _ => ⟨?_, ?_, ?_, ?_, ?_⟩, ?_⟩
    · rw [hout]
      exact hnome3
    · rw [hout]
      intro hmem
      exact (hdrop _ hmem (by decide)).1 rfl
    · rw [hout]
      intro hmem
      exact (hdrop _ hmem (by decide)).2 rfl
    · rw [hout]
      intro hlen
      show cs3[1]? = some "nome_completo"
      rw [hcs3]
      unfold pyInsert
      cases he : cs2.erase "nome_completo" with
      | nil =>
        exfalso
        have : cs3.length = 1 := by
          rw [hcs3]
          unfold pyInsert
          rw [he]
          rfl
        have hlen2 : 2 ≤ cs3.length := hlen
        omega
      | cons x xs => simp [List.insertIdx]
    · intro n hn
      rw [hout]
      have hr : df.rows.getD n [] ∈ df.rows := getD_mem_of_lt _ _ _ hn
      have hrl : (df.rows.getD n []).length = df.cols.length :=
        hwf _ hr
      have hlen1 : df1.rows.length = df.rows.length := by
        rw [hdf1]
        unfold assignColumn
        cases df.cols.indexOf? "nome_completo" <;> simp
      have hlen2 : (selectCols df1 cs2).rows.length = df.rows.length := by
        unfold selectCols
        simpa using hlen1
      have hb2 : n < (selectCols df1 cs2).rows.length := hlen2.symm ▸ hn
      have hb1 : n < df1.rows.length := hlen1.symm ▸ hn
      have hrow3 : (selectCols (selectCols df1 cs2) cs3).rows.getD n [] =
          cs3.map (getCellByName (selectCols df1 cs2).cols
            ((selectCols df1 cs2).rows.getD n [])) :=
        getD_map_of_lt _ _ _ _ [] hb2
      have hrow2 : (selectCols df1 cs2).rows.getD n [] =
          cs2.map (getCellByName df1.cols (df1.rows.getD n [])) :=
        getD_map_of_lt _ _ _ _ [] hb1
      have hcols2 : (selectCols df1 cs2).cols = cs2 := rfl
      have hcols3 : (selectCols (selectCols df1 cs2) cs3).cols = cs3 := rfl
      rw [hrow3, hcols2, hcols3,
        getCellByName_map_self cs3 _ "nome_completo" hnome3, hrow2,
        getCellByName_map_self cs2 _ "nome_completo" hnome2]
      by_cases hmem : "nome_completo" ∈ df.cols
      · obtain ⟨k, hk, hklt, hkget⟩ :=
          indexOf?_some_of_mem df.cols "nome_completo" hmem
        have hdf1e : df1 = ⟨df.cols, df.rows.map (fun r => r.set k (f r))⟩ := by
          rw [hdf1]
          unfold assignColumn
          rw [hk]
        rw [hdf1e]
        have hr1 : (List.map (fun r => r.set k (f r)) df.rows).getD n [] =
            (df.rows.getD n []).set k (f (df.rows.getD n [])) :=
          getD_map_of_lt _ _ _ _ [] hn
        show getCellByName df.cols _ "nome_completo" = _
        unfold getCellByName
        rw [hk, hr1]
        show ((df.rows.getD n []).set k (f (df.rows.getD n []))).getD k none =
          f (df.rows.getD n [])
        exact getD_set_lt _ _ _ _ (by rw [hrl]; exact hklt)
      · have hdf1e : df1 = ⟨df.cols ++ ["nome_completo"],
            df.rows.map (fun r => r ++ [f r])⟩ := by
          rw [hdf1]
          unfold assignColumn
          rw [indexOf?_eq_none_of_not_mem _ _ hmem]
        rw [hdf1e]
        have hr1 : (List.map (fun r => r ++ [f r]) df.rows).getD n [] =
            (df.rows.getD n []) ++ [f (df.rows.getD n [])] :=
          getD_map_of_lt _ _ _ _ [] hn
        show getCellByName (df.cols ++ ["nome_completo"]) _ "nome_completo" = _
        unfold getCellByName
        rw [indexOf?_append_singleton _ _ hmem, hr1,
          show df.cols.length = (df.rows.getD n []).length from hrl.symm]
        show (df.rows.getD n [] ++ [f (df.rows.getD n [])]).getD
            (df.rows.getD n []).length none = f (df.rows.getD n [])
        exact getD_append_length _ _ _
    · have hpn : "primeiro_nome" ∉ (processar_nome_completo df).cols := by
        rw [hout]
        intro hmem
        exact (hdrop _ hmem (by decide)).1 rfl
      exact processar_nome_completo_of_missing _ (fun h => hpn h.1)

/-- Witness for `processar_nome_completo_amended`: a concrete
three-column client table. -/
theorem processar_nome_completo_amended_witness :
    "nome_completo" ∈ (processar_nome_completo
      ⟨["id", "primeiro_nome", "ultimo_nome"],
        [[some "1", some "Ana", some "Silva"]]⟩).cols ∧
    "primeiro_nome" ∉ (processar_nome_completo
      ⟨["id", "primeiro_nome", "ultimo_nome"],
        [[some "1", some "Ana", some "Silva"]]⟩).cols ∧
    (processar_nome_completo
      ⟨["id", "primeiro_nome", "ultimo_nome"],
        [[some "1", some "Ana", some "Silva"]]⟩).cols[1]? =
      some "nome_completo" ∧
    getCellByName (processar_nome_completo
        ⟨["id", "primeiro_nome", "ultimo_nome"],
          [[some "1", some "Ana", some "Silva"]]⟩).cols
      ((processar_nome_completo
        ⟨["id", "primeiro_nome", "ultimo_nome"],
          [[some "1", some "Ana", some "Silva"]]⟩).rows.getD 0 [])
      "nome_completo" = some "Ana Silva" ∧
    processar_nome_completo (processar_nome_completo
      ⟨["id", "primeiro_nome", "ultimo_nome"],
        [[some "1", some "Ana", some "Silva"]]⟩) =
      processar_nome_completo
        ⟨["id", "primeiro_nome", "ultimo_nome"],
          [[some "1", some "Ana", some "Silva"]]⟩ := by
  have H := processar_nome_completo_amended
    ⟨["id", "primeiro_nome", "ultimo_nome"],
      [[some "1", some "Ana", some "Silva"]]⟩ (by decide)
  obtain ⟨-, h2, h3⟩ := H
  obtain ⟨ha, hb, -, hd, he⟩ := h2 (by decide)
  refine ⟨ha, hb, hd (by decide), ?_, h3⟩
  rw [he 0 (by decide)]
  decide

end RealsBet
